import Mathlib

/-!
Verification of `file_server.py` (flask-file-server): a shallow embedding of
the path resolution, range parsing/serving, listing, sorting, pagination and
upload handling logic, with theorems checking the specification's claims.

Files are modelled as lists of bytes (`List Nat`); filesystem paths as lists
of path segments (`List String`).
-/

namespace FileServer

/- ## Path resolution

`PathView.get` / `PathView.post` compute `path = os.path.join(root, p)` with
no sanitisation of `p`; the operating system then resolves `.` and `..`
segments when the path is looked up.  `normSegs` models that OS-level
resolution on an absolute path given as a segment list. -/

/-- One step of OS path resolution: `.` is dropped, `..` pops the previous
segment (at the filesystem root it is a no-op), anything else is appended. -/
def normStep (acc : List String) (seg : String) : List String :=
  if seg = "." then acc
  else if seg = ".." then acc.dropLast
  else acc ++ [seg]

/-- OS-level resolution of an absolute path's segment sequence. -/
def normSegs (segs : List String) : List String :=
  segs.foldl normStep []

/-- `os.path.join(root, p)` followed by OS resolution: the handlers join the
request path onto the root with no containment check. -/
def resolvePath (rootSegs p : List String) : List String :=
  normSegs (rootSegs ++ p)

/-- The part of the filesystem state the handlers consult: which resolved
paths are directories and which are files. -/
structure FS where
  dirs : List (List String)
  files : List (List String)
deriving Repr, DecidableEq

/-- Outcome of the GET handler's dispatch on the resolved path
(`if os.path.isdir ... elif os.path.isfile ... else 404`). -/
inductive GetOutcome where
  /-- The directory-listing branch, carrying the resolved path it lists. -/
  | listing (path : List String) : GetOutcome
  /-- The file-serving branch, carrying the resolved path it serves. -/
  | serveFile (path : List String) : GetOutcome
  /-- The `make_response("Not found", 404)` branch. -/
  | notFound : GetOutcome
deriving Repr, DecidableEq

/-- Dispatch of `PathView.get` on the resolved path. -/
def pathViewGetDispatch (fs : FS) (rootSegs p : List String) : GetOutcome :=
  let path := resolvePath rootSegs p
  if fs.dirs.contains path then .listing path
  else if fs.files.contains path then .serveFile path
  else .notFound

/-- Dispatch of `PathView.post` on the resolved path: `true` iff the upload
branch is taken (`os.path.isdir(path)`), i.e. uploads are written under the
resolved path. -/
def pathViewPostAcceptsUpload (fs : FS) (rootSegs p : List String) : Bool :=
  fs.dirs.contains (resolvePath rootSegs p)

/-- A resolved path escapes the root when the root's segments are no longer a
prefix of it. -/
def escapesRoot (rootSegs resolved : List String) : Prop :=
  ¬ rootSegs <+: resolved

instance (rootSegs resolved : List String) :
    Decidable (escapesRoot rootSegs resolved) := by
  unfold escapesRoot; infer_instance

/- ## Range parsing: `get_range`

`get_range` matches the header against the regex
`bytes=(?P<start>\d+)-(?P<end>\d+)?` with `re.match` (prefix match, trailing
garbage ignored) and returns `(0, None)` when the match fails. -/

/-- Numeric value of a digit run, as `int()` computes it. -/
def digitsToNat (ds : List Char) : Nat :=
  ds.foldl (fun n c => 10 * n + (c.toNat - 48)) 0

/-- `get_range`: parse the `Range` header value.  Faithful to the regex
`bytes=(?P<start>\d+)-(?P<end>\d+)?` under `re.match`: the literal prefix
`bytes=`, a nonempty digit run, a dash, an optional digit run; anything after
the match is ignored, and a failed match yields `(0, none)`. -/
def get_range (header : String) : Nat × Option Nat :=
  let cs := header.toList
  if cs.take 6 = "bytes=".toList then
    let rest := cs.drop 6
    let ds := rest.takeWhile Char.isDigit
    if ds.isEmpty then (0, none)
    else
      match rest.drop ds.length with
      | '-' :: rest2 =>
          let es := rest2.takeWhile Char.isDigit
          (digitsToNat ds, if es.isEmpty then none else some (digitsToNat es))
      | _ => (0, none)
  else (0, none)

/- ## Partial responses: `partial_response` -/

/-- The response assembled by `partial_response`: status code, body bytes and
the two headers it adds. -/
structure PartialResp where
  status : Nat
  body : List Nat
  contentRange : String
  acceptRanges : String
deriving Repr, DecidableEq

/-- `fd.seek(start); fd.read(length)` for a Python file object: a negative
count reads to end-of-file, otherwise at most `length` bytes are returned. -/
def pyRead (file : List Nat) (pos : Nat) (count : Int) : List Nat :=
  if count < 0 then file.drop pos else (file.drop pos).take count.toNat

/-- `partial_response(path, start, end)`: defaults the end to
`file_size - 1`, reads `end - start + 1` bytes at offset `start`, asserts the
read returned exactly that many bytes (`.error` models the
`AssertionError`), and otherwise builds a 206 response with `Content-Range`
and `Accept-Ranges` headers. -/
def partial_response (file : List Nat) (start : Nat) (endOpt : Option Nat) :
    Except String PartialResp :=
  let file_size : Int := file.length
  let e : Int := match endOpt with
    | none => file_size - 1
    | some x => (x : Int)
  let length : Int := e - (start : Int) + 1
  let bytes := pyRead file start length
  if (bytes.length : Int) = length then
    .ok { status := 206
          body := bytes
          contentRange := s!"bytes {start}-{e}/{file_size}"
          acceptRanges := "bytes" }
  else .error "AssertionError"

/-- The file branch of `PathView.get` when a `Range` header is present:
`start, end = get_range(request); partial_response(path, start, end)`. -/
def serveRange (file : List Nat) (header : String) : Except String PartialResp :=
  let r := get_range header
  partial_response file r.1 r.2

/-- Python's `s.startswith(pre)`: character-wise prefix test. -/
def pyStartswith (s pre : String) : Bool :=
  pre.toList.isPrefixOf s.toList

/- ## Pagination: `paginate` -/

/-- Python's list slice `xs[s:e]` for nonnegative bounds: the elements at
indices `s ≤ i < e`, clamped to the list. -/
def pySlice (xs : List α) (s e : Nat) : List α :=
  (xs.take e).drop s

/-- `paginate(contents, page, page_size)`: `contents[start : start + page_size]`
with `start = page * page_size`.  (The source first coerces its arguments
with `int()`, returning the list unchanged when that raises; the embedding
takes the already-numeric indices, which is the claim's precondition.) -/
def paginate (contents : List α) (page : Nat) (page_size : Nat) : List α :=
  let start := page * page_size
  let stop := start + page_size
  pySlice contents start stop

/- ## File entries -/

/-- The deny-list `ignored` of well-known artifact names. -/
def ignored : List String :=
  [".bzr", "$RECYCLE.BIN", ".DAV", ".DS_Store", ".git", ".hg", ".htaccess",
   ".htpasswd", ".Spotlight-V100", ".svn", "__MACOSX", "ehthumbs.db",
   "robots.txt", "Thumbs.db", "thumbs.tps"]

/-- The fields of an `os.stat` result the program reads: whether `st_mode`
marks a directory (or symlink), plus `st_size` and `st_mtime`. -/
structure StatRes where
  isDir : Bool
  size : Nat
  mtime : Nat
deriving Repr, DecidableEq

/-- The `File` wrapper: base name, full path, and the cached `stat` result
(`none` models the `return None` branch of a failed `os.stat`). -/
structure File where
  name : String
  path : String
  stat : Option StatRes
deriving Repr, DecidableEq

/-- `File.type`: `"dir"` when the stat's mode is a directory or symlink,
else `"file"`.  (With `stat = None` CPython would raise an
`AttributeError`; the handler only reads `type` after checking `stat`, so
the `none` case is unreachable there and mapped to `"file"`.) -/
def File.type (f : File) : String :=
  match f.stat with
  | some st => if st.isDir then "dir" else "file"
  | none => "file"

/-- `File.ignored`: the name is on the deny-list. -/
def File.ignored (f : File) : Bool :=
  FileServer.ignored.contains f.name

/-- `File.hidden`: the name starts with a dot. -/
def File.hidden (f : File) : Bool :=
  pyStartswith f.name "."

/-- The size of an entry with readable metadata (`st_size`), 0 otherwise. -/
def statSize (f : File) : Nat :=
  match f.stat with
  | some st => st.size
  | none => 0

/- ## Sorting: `sorted_contents` -/

/-- A Python value as produced by `getattr(f, key, None)` on a `File`'s
data attributes: a string, a number, or `None`. -/
inductive PyVal where
  | vstr (s : String) : PyVal
  | vnum (n : Nat) : PyVal
  | vnone : PyVal
deriving Repr, DecidableEq

/-- `getattr(f, key, None)`: the entry's data attributes by name, `None`
for any other key.  `size` and `mtime` are `self.stat and self.stat.st_*`,
hence `None` when `stat` failed. -/
def getattrOrNone (f : File) (key : String) : PyVal :=
  if key = "name" then .vstr f.name
  else if key = "path" then .vstr f.path
  else if key = "type" then .vstr f.type
  else if key = "size" then
    match f.stat with
    | some st => .vnum st.size
    | none => .vnone
  else if key = "mtime" then
    match f.stat with
    | some st => .vnum st.mtime
    | none => .vnone
  else .vnone

/-- Ordering of key values: strings and numbers by their order; a pair
involving `None` (never produced for a supported key) is a tie, the
legacy ordering under which `sorted` leaves such elements in place.
(CPython 3 would instead raise a `TypeError` comparing `None`s — an
unhandled 500; under neither reading is an unsupported key a client
error.) -/
def pyLe : PyVal → PyVal → Bool
  | .vstr a, .vstr b => decide (a ≤ b)
  | .vnum a, .vnum b => decide (a ≤ b)
  | _, _ => true

/-- Stable insertion into a sorted list: the new element goes before the
first element it compares `le`-true to, so an earlier element stays ahead
of later ties. -/
def insertS (le : α → α → Bool) (a : α) : List α → List α
  | [] => [a]
  | b :: bs => if le a b then a :: b :: bs else b :: insertS le a bs

/-- Python's `sorted` (a stable comparison sort) modelled as a stable
insertion sort: each element is inserted ahead of the ties among the
elements after it. -/
def pySorted (le : α → α → Bool) : List α → List α
  | [] => []
  | a :: as => insertS le a (pySorted le as)

/-- `sorting.lstrip("-")`: drop every leading dash. -/
def lstripDash (s : String) : String :=
  ⟨s.toList.dropWhile fun c => c = '-'⟩

/-- `sorted_contents(contents, sorting)`: an empty key preserves the input
order; a `-` prefix selects descending order; the key is read per element
with `getattr(f, key, None)`; `sorted`'s stable sort orders the entries,
`reverse=True` modelled by the flipped comparator (stable descending). -/
def sorted_contents (contents : List File) (sorting : String) : List File :=
  if sorting = "" then contents
  else
    let rev := pyStartswith sorting "-"
    let key := lstripDash sorting
    if rev then
      pySorted (fun a b => pyLe (getattrOrNone b key) (getattrOrNone a key))
        contents
    else
      pySorted (fun a b => pyLe (getattrOrNone a key) (getattrOrNone b key))
        contents

/-- A plain file entry with readable metadata, for concrete sorting runs. -/
def entryOfSize (name : String) (size : Nat) : File :=
  { name := name, path := name
    stat := some { isDir := false, size := size, mtime := 0 } }

/- ## Directory listing: the loop in `PathView.get` -/

/-- The aggregate dict `total = {"size": 0, "dir": 0, "file": 0}`. -/
structure Totals where
  size : Nat
  dir : Nat
  file : Nat
deriving Repr, DecidableEq

/-- One iteration of the listing loop: skip deny-listed names, skip hidden
names when `hide-dotfile` is `"yes"`, skip entries whose `stat` failed;
otherwise bump the `dir`/`file` counter and the size total and append the
entry to the listing. -/
def processEntry (hide_dotfile : String) (acc : List File × Totals)
    (f : File) : List File × Totals :=
  if f.ignored then acc
  else if hide_dotfile == "yes" && f.hidden then acc
  else
    match f.stat with
    | none => acc
    | some st =>
        let t := acc.2
        let t := if f.type = "dir"
          then { t with dir := t.dir + 1 }
          else { t with file := t.file + 1 }
        (acc.1 ++ [f], { t with size := t.size + st.size })

/-- The listing loop of `PathView.get` over the enumerated entries. -/
def listDirectory (files : List File) (hide_dotfile : String) :
    List File × Totals :=
  files.foldl (processEntry hide_dotfile) ([], ⟨0, 0, 0⟩)

/-- The filter the loop implements, as one predicate: not deny-listed, not
hidden while dotfiles are hidden, and metadata readable. -/
def keepEntry (hide_dotfile : String) (f : File) : Bool :=
  !f.ignored && !(hide_dotfile == "yes" && f.hidden) && f.stat.isSome

/- ## Uploads: `secure_filename` and `PathView.post` -/

/-- Characters allowed in a sanitized bare filename. -/
def isSafeChar (c : Char) : Bool :=
  c.isAlphanum || c == '.' || c == '-' || c == '_'

/-- Modelled from the spec: `werkzeug.secure_filename` is imported by the
source, not part of this repository.  Per §4.8 it sanitizes the supplied
filename by stripping path separators and other characters unsafe for a
bare filename: separators become underscores, every other unsafe character
is dropped, and leading and trailing dots and underscores are stripped (so
a `..` never survives as the whole name). -/
def secure_filename (filename : String) : String :=
  let cs := filename.toList.map fun c =>
    if c == '/' || c == '\\' then '_' else c
  let cs := cs.filter isSafeChar
  ⟨(cs.dropWhile fun c => c == '.' || c == '_').rdropWhile
      fun c => c == '.' || c == '_'⟩

/-- `PathView.post`: when the target is a directory every stream is saved
under its sanitized name with per-file failures caught (the `info` dict
keeps the last outcome); otherwise `info` reports an invalid operation.
Either way the response is built with `make_response(..., 200)`.
`saveResults` gives each iteration's `try`-block outcome (sanitize+save);
the returned pair is the status code and the `info` dict (`none` = empty,
else its `status`/`msg` entries). -/
def pathViewPost (isDir : Bool) (saveResults : List (Except String Unit)) :
    Nat × Option (String × String) :=
  if isDir then
    (200, saveResults.foldl
      (fun _ r =>
        match r with
        | .error e => some ("error", e)
        | .ok _ => some ("success", "File Saved"))
      none)
  else (200, some ("error", "Invalid Operation"))

/- ## Theorems -/

/-- `toString` on an `Int` arising from a `Nat` renders like the `Nat`. -/
theorem int_toString_ofNat (n : Nat) : toString ((n : Nat) : Int) = toString n :=
  rfl

/-- C1: the claim that every request path escaping the root is rejected
fails on the code.  `PathView.get`/`PathView.post` compute
`os.path.join(root, p)` with no containment check, so with root
`/home/user` the request path `../../etc/passwd` resolves to `/etc/passwd`
— outside the root — and the GET dispatch serves that file instead of
returning a not-found or forbidden outcome. -/
theorem get_post_resolve_escaping_path :
    resolvePath ["home", "user"] ["..", "..", "etc", "passwd"]
        = ["etc", "passwd"] ∧
    escapesRoot ["home", "user"]
        (resolvePath ["home", "user"] ["..", "..", "etc", "passwd"]) ∧
    pathViewGetDispatch ⟨[["home", "user"]], [["etc", "passwd"]]⟩
        ["home", "user"] ["..", "..", "etc", "passwd"]
        = .serveFile ["etc", "passwd"] ∧
    pathViewPostAcceptsUpload ⟨[["home", "user", "up"], ["tmp"]], []⟩
        ["home", "user", "up"] ["..", "..", "..", "tmp"] = true := by
  refine ⟨by decide, by decide, by decide, by decide⟩

set_option maxRecDepth 40000 in
/-- C2: the claim that every syntactically invalid or out-of-bounds `Range`
header gets a range-not-satisfiable outcome fails on the code.  On a
1000-byte file: an unparseable header makes `get_range` fall back to
`(0, None)` and the whole file is served as a 206; a multi-range header
matches the regex's prefix and bytes 0..10 are served as a 206 as if the
range were valid; and the spec's own example `bytes=900-999999` dies on the
`assert` (an unhandled `AssertionError`, i.e. a 500), not a 416. -/
theorem invalid_range_served_not_rejected :
    serveRange (List.range 1000) "garbage"
        = .ok ⟨206, List.range 1000, "bytes 0-999/1000", "bytes"⟩ ∧
    serveRange (List.range 1000) "bytes=0-10,20-30"
        = .ok ⟨206, List.range 11, "bytes 0-10/1000", "bytes"⟩ ∧
    serveRange (List.range 1000) "bytes=900-999999"
        = .error "AssertionError" := by
  refine ⟨by rfl, by rfl, by rfl⟩

/-- C3: for a validated range `0 ≤ start ≤ end < fileSize`,
`partial_response` returns status 206 with a body of exactly
`end - start + 1` bytes equal to the file's bytes at offsets
`start..end`, header `Content-Range: bytes {start}-{end}/{fileSize}` and
header `Accept-Ranges: bytes`. -/
theorem partial_response_valid_range (file : List Nat) (s e : Nat)
    (hse : s ≤ e) (hef : e < file.length) :
    partial_response file s (some e)
        = .ok { status := 206
                body := (file.drop s).take (e - s + 1)
                contentRange := s!"bytes {s}-{e}/{file.length}"
                acceptRanges := "bytes" } ∧
    ((file.drop s).take (e - s + 1)).length = e - s + 1 ∧
    (∀ i : Nat, i < e - s + 1 →
        ((file.drop s).take (e - s + 1))[i]? = file[s + i]?) := by
  have hcount : ¬ ((e : Int) - (s : Int) + 1 < 0) := by omega
  have htn : ((e : Int) - (s : Int) + 1).toNat = e - s + 1 := by omega
  have hlen : ((file.drop s).take (e - s + 1)).length = e - s + 1 := by
    simp only [List.length_take, List.length_drop]
    omega
  refine ⟨?_, hlen, ?_⟩
  · simp only [partial_response, pyRead, if_neg hcount, htn]
    rw [if_pos (by rw [hlen]; omega)]
    rw [int_toString_ofNat, int_toString_ofNat]
  · intro i hi
    rw [List.getElem?_take_of_lt hi, List.getElem?_drop]

set_option maxRecDepth 40000 in
/-- C3 witness: `bytes=0-99` on a 1000-byte file yields a 206 with body
length exactly 100 and `Content-Range: bytes 0-99/1000`. -/
theorem partial_response_valid_range_witness :
    0 ≤ 99 ∧ 99 < (List.range 1000).length ∧
    (partial_response (List.range 1000) 0 (some 99)
        = .ok { status := 206
                body := ((List.range 1000).drop 0).take 100
                contentRange := "bytes 0-99/1000"
                acceptRanges := "bytes" } ∧
     (((List.range 1000).drop 0).take 100).length = 100) :=
  have h := partial_response_valid_range (List.range 1000) 0 99
    (by decide) (by simp)
  ⟨by decide, by simp, by rw [h.1]; rfl, h.2.1⟩

/-- C4: when the parsed range has its end omitted, the served end defaults
to `fileSize - 1`: the body is the whole tail of the file from `start` and
the `Content-Range` header names `fileSize - 1` as the end; moreover any
header that `get_range` parses to `(start, None)` is served exactly this
way. -/
theorem omitted_end_defaults_to_filesize (file : List Nat) (s : Nat)
    (hs : s ≤ file.length) :
    partial_response file s none
        = .ok { status := 206
                body := file.drop s
                contentRange :=
                  s!"bytes {s}-{(file.length : Int) - 1}/{file.length}"
                acceptRanges := "bytes" } ∧
    (file.drop s).length = file.length - s ∧
    (∀ header, get_range header = (s, none) →
        serveRange file header = partial_response file s none) := by
  have hcount : ¬ ((file.length : Int) - 1 - (s : Int) + 1 < 0) := by omega
  have htn : ((file.length : Int) - 1 - (s : Int) + 1).toNat
      = file.length - s := by omega
  have htake : (file.drop s).take (file.length - s) = file.drop s := by
    rw [← List.length_drop s file]
    exact List.take_length _
  refine ⟨?_, List.length_drop s file, ?_⟩
  · simp only [partial_response, pyRead, if_neg hcount, htn, htake]
    rw [if_pos (by simp only [List.length_drop]; omega)]
    rw [int_toString_ofNat]
  · intro header hh
    simp only [serveRange, hh]

set_option maxRecDepth 40000 in
/-- C4 witness: `bytes=500-` on a 1000-byte file is parsed with the end
omitted and served with end 999 and a body of exactly 500 bytes. -/
theorem omitted_end_defaults_to_filesize_witness :
    500 ≤ (List.range 1000).length ∧
    get_range "bytes=500-" = (500, none) ∧
    serveRange (List.range 1000) "bytes=500-"
        = .ok { status := 206
                body := (List.range 1000).drop 500
                contentRange := "bytes 500-999/1000"
                acceptRanges := "bytes" } ∧
    ((List.range 1000).drop 500).length = 500 :=
  have h := omitted_end_defaults_to_filesize (List.range 1000) 500 (by simp)
  ⟨by simp, by decide,
    by rw [h.2.2 "bytes=500-" (by decide), h.1]; rfl,
    by rw [h.2.1]; rfl⟩

/-- C5: `paginate` is the pure slice `xs[p*s : p*s + s]` clamped to the
list bounds: it equals `(xs.drop (p*s)).take s`, picks exactly the
elements at indices `p*s + i` for `i < s`, and a page past the end of the
list yields the empty result, never an error. -/
theorem paginate_is_clamped_slice (xs : List α) (p s : Nat) (hs : 0 < s) :
    paginate xs p s = (xs.drop (p * s)).take s ∧
    (∀ i : Nat, i < s → (paginate xs p s)[i]? = xs[p * s + i]?) ∧
    (paginate xs p s).length = min s (xs.length - p * s) ∧
    (xs.length ≤ p * s → paginate xs p s = []) := by
  have key : paginate xs p s = (xs.drop (p * s)).take s := by
    simp only [paginate, pySlice]
    rw [List.take_drop]
  refine ⟨key, ?_, ?_, ?_⟩
  · intro i hi
    rw [key, List.getElem?_take_of_lt hi, List.getElem?_drop]
  · rw [key]
    simp [List.length_take, List.length_drop]
  · intro h
    rw [key, List.drop_eq_nil_of_le h, List.take_nil]

/-- C5 witness: page 1 of size 3 on a ten-element list is elements 3..5,
and page 5 of size 2 on a three-element list is empty. -/
theorem paginate_is_clamped_slice_witness :
    0 < 3 ∧
    paginate ([10, 11, 12, 13, 14, 15, 16, 17, 18, 19] : List Nat) 1 3
      = [13, 14, 15] ∧
    (([10, 11, 12] : List Nat).length ≤ 5 * 2 ∧
     paginate ([10, 11, 12] : List Nat) 5 2 = []) :=
  have h1 := paginate_is_clamped_slice
    ([10, 11, 12, 13, 14, 15, 16, 17, 18, 19] : List Nat) 1 3 (by decide)
  have h2 := paginate_is_clamped_slice ([10, 11, 12] : List Nat) 5 2 (by decide)
  ⟨by decide, by rw [h1.1]; decide, by decide, h2.2.2.2 (by decide)⟩

/-- C6: the claim that an unsupported sort key surfaces as a client-facing
`InvalidSortKey` error fails on the code: `getattr(f, key, None)` silently
falls back to `None`, and sorting three entries by the unsupported key
`bogus` — ascending or descending — returns the collection unchanged, a
silent no-op with no error outcome of any kind.  (Under CPython 3 the
`None`-to-`None` comparisons would instead raise an uncaught `TypeError`,
an internal 500 — still never a client-facing `InvalidSortKey`.) -/
theorem unsupported_sort_key_is_silent_noop :
    getattrOrNone (entryOfSize "a" 10) "bogus" = .vnone ∧
    sorted_contents
        [entryOfSize "a" 10, entryOfSize "b" 5, entryOfSize "c" 20] "bogus"
      = [entryOfSize "a" 10, entryOfSize "b" 5, entryOfSize "c" 20] ∧
    sorted_contents
        [entryOfSize "a" 10, entryOfSize "b" 5, entryOfSize "c" 20] "-bogus"
      = [entryOfSize "a" 10, entryOfSize "b" 5, entryOfSize "c" 20] :=
  ⟨by decide, by decide, by decide⟩

open List

/-- Inserting an element leaves the rest of the list as a sublist. -/
theorem sublist_insertS (le : α → α → Bool) (a : α) :
    ∀ l : List α, l <+ insertS le a l
  | [] => List.nil_sublist _
  | b :: bs => by
      simp only [insertS]
      split
      · exact List.sublist_cons_self a (b :: bs)
      · exact List.cons_sublist_cons.2 (sublist_insertS le a bs)

/-- The inserted element lands ahead of every present element it compares
`le`-true to. -/
theorem insertS_pair (le : α → α → Bool) (a y : α) (hay : le a y = true) :
    ∀ l : List α, [y] <+ l → [a, y] <+ insertS le a l
  | [], h => by simp at h
  | b :: bs, h => by
      simp only [insertS]
      split
      · exact List.cons_sublist_cons.2 h
      · rename_i hb
        rcases List.mem_cons.1 (List.singleton_sublist.1 h) with hyb | hybs
        · subst hyb; exact absurd hay hb
        · exact (insertS_pair le a y hay bs
            (List.singleton_sublist.2 hybs)).cons b

/-- The inserted element is a member of the result. -/
theorem self_mem_insertS (le : α → α → Bool) (a : α) :
    ∀ l : List α, a ∈ insertS le a l
  | [] => List.mem_singleton.2 rfl
  | b :: bs => by
      simp only [insertS]
      split
      · exact List.mem_cons_self a _
      · exact List.mem_cons_of_mem b (self_mem_insertS le a bs)

/-- Sorting preserves membership. -/
theorem mem_pySorted (le : α → α → Bool) (y : α) :
    ∀ l : List α, y ∈ l → y ∈ pySorted le l
  | a :: as, h => by
      simp only [pySorted]
      rcases List.mem_cons.1 h with hya | hyas
      · subst hya; exact self_mem_insertS le y _
      · exact (sublist_insertS le a _).subset (mem_pySorted le y as hyas)

/-- Stability of the modelled `sorted`: a pair in input order whose first
component compares `le`-true to the second keeps its order. -/
theorem pySorted_stable (le : α → α → Bool) (a b : α)
    (hab : le a b = true) :
    ∀ l : List α, [a, b] <+ l → [a, b] <+ pySorted le l
  | [], h => by simp at h
  | x :: xs, h => by
      simp only [pySorted]
      rcases List.sublist_cons_iff.1 h with h1 | ⟨r, hr, hrs⟩
      · exact (pySorted_stable le a b hab xs h1).trans
          (sublist_insertS le x (pySorted le xs))
      · have hx : x = a := by injection hr with h1 h2; exact h1.symm
        have hr2 : r = [b] := by injection hr with h1 h2; exact h2.symm
        rw [hr2] at hrs
        rw [hx]
        exact insertS_pair le a b hab (pySorted le xs)
          (List.singleton_sublist.2
            (mem_pySorted le b xs (List.singleton_sublist.1 hrs)))

/-- A tied key value compares `le`-true to itself. -/
theorem pyLe_refl (v : PyVal) : pyLe v v = true := by
  cases v <;> simp [pyLe, le_refl]

/-- With a nonempty non-dash-prefixed key, `sorted_contents` is the stable
sort under the ascending comparator. -/
theorem sorted_contents_asc (xs : List File) (sorting : String)
    (h0 : ¬ sorting = "") (hrev : pyStartswith sorting "-" = false) :
    sorted_contents xs sorting =
      pySorted (fun a b =>
        pyLe (getattrOrNone a (lstripDash sorting))
          (getattrOrNone b (lstripDash sorting))) xs := by
  simp only [sorted_contents, if_neg h0, hrev, Bool.false_eq_true, if_false]

/-- With a dash-prefixed key, `sorted_contents` is the stable sort under
the flipped comparator. -/
theorem sorted_contents_desc (xs : List File) (sorting : String)
    (h0 : ¬ sorting = "") (hrev : pyStartswith sorting "-" = true) :
    sorted_contents xs sorting =
      pySorted (fun a b =>
        pyLe (getattrOrNone b (lstripDash sorting))
          (getattrOrNone a (lstripDash sorting))) xs := by
  simp only [sorted_contents, if_neg h0, hrev, if_true]

/-- Ascending stability for one key. -/
theorem stable_for_key (xs : List File) (a b : File) (key : String)
    (hne : ¬ key = "") (hrev : pyStartswith key "-" = false)
    (hstrip : lstripDash key = key)
    (heq : getattrOrNone a key = getattrOrNone b key)
    (hsub : [a, b] <+ xs) :
    [a, b] <+ sorted_contents xs key := by
  rw [sorted_contents_asc xs key hne hrev]
  refine pySorted_stable _ a b ?_ xs hsub
  show pyLe (getattrOrNone a (lstripDash key))
    (getattrOrNone b (lstripDash key)) = true
  rw [hstrip, heq]
  exact pyLe_refl _

/-- Descending stability for one key. -/
theorem stable_for_key_desc (xs : List File) (a b : File) (key : String)
    (hne : ¬ ("-" ++ key) = "")
    (hrev : pyStartswith ("-" ++ key) "-" = true)
    (hstrip : lstripDash ("-" ++ key) = key)
    (heq : getattrOrNone a key = getattrOrNone b key)
    (hsub : [a, b] <+ xs) :
    [a, b] <+ sorted_contents xs ("-" ++ key) := by
  rw [sorted_contents_desc xs _ hne hrev]
  refine pySorted_stable _ a b ?_ xs hsub
  show pyLe (getattrOrNone b (lstripDash ("-" ++ key)))
    (getattrOrNone a (lstripDash ("-" ++ key))) = true
  rw [hstrip, heq]
  exact pyLe_refl _

/-- C7: sorting is stable for every supported key, in ascending and in
`-`-prefixed descending order — entries with equal key values keep their
relative input order — and sorting entries with sizes [10, 5, 20] by
`-size` yields the sizes in order [20, 10, 5]. -/
theorem sorting_stable_and_desc_size_example (xs : List File) (a b : File)
    (key : String)
    (hkey : key = "name" ∨ key = "type" ∨ key = "size" ∨ key = "mtime")
    (heq : getattrOrNone a key = getattrOrNone b key)
    (hsub : [a, b] <+ xs) :
    [a, b] <+ sorted_contents xs key ∧
    [a, b] <+ sorted_contents xs ("-" ++ key) ∧
    sorted_contents
        [entryOfSize "a" 10, entryOfSize "b" 5, entryOfSize "c" 20] "-size"
      = [entryOfSize "c" 20, entryOfSize "a" 10, entryOfSize "b" 5] := by
  refine ⟨?_, ?_, by decide⟩ <;>
    rcases hkey with h | h | h | h <;> subst h <;>
    first
      | exact stable_for_key xs a b _ (by decide) (by decide) (by decide)
          heq hsub
      | exact stable_for_key_desc xs a b _ (by decide) (by decide)
          (by decide) heq hsub

/-- C7 witness: two same-size entries keep their order under `size` and
`-size`, and the concrete `-size` run on sizes [10, 5, 20] is evaluated. -/
theorem sorting_stable_and_desc_size_example_witness :
    getattrOrNone (entryOfSize "a" 7) "size"
        = getattrOrNone (entryOfSize "b" 7) "size" ∧
    [entryOfSize "a" 7, entryOfSize "b" 7]
        <+ [entryOfSize "a" 7, entryOfSize "c" 3, entryOfSize "b" 7] ∧
    [entryOfSize "a" 7, entryOfSize "b" 7]
        <+ sorted_contents
            [entryOfSize "a" 7, entryOfSize "c" 3, entryOfSize "b" 7]
            "size" ∧
    [entryOfSize "a" 7, entryOfSize "b" 7]
        <+ sorted_contents
            [entryOfSize "a" 7, entryOfSize "c" 3, entryOfSize "b" 7]
            ("-" ++ "size") :=
  have h := sorting_stable_and_desc_size_example
    [entryOfSize "a" 7, entryOfSize "c" 3, entryOfSize "b" 7]
    (entryOfSize "a" 7) (entryOfSize "b" 7) "size"
    (by simp) (by decide) (by decide)
  ⟨by decide, by decide, h.1, h.2.1⟩

/-- One listing-loop step, phrased through the `keepEntry` filter. -/
theorem processEntry_eq (hd : String) (acc : List File × Totals) (f : File) :
    processEntry hd acc f =
      if keepEntry hd f then
        (acc.1 ++ [f],
         ⟨acc.2.size + statSize f,
          acc.2.dir + (if f.type = "dir" then 1 else 0),
          acc.2.file + (if f.type = "dir" then 0 else 1)⟩)
      else acc := by
  unfold processEntry keepEntry statSize
  by_cases h1 : f.ignored = true
  · simp [h1]
  · by_cases h2 : (hd == "yes" && f.hidden) = true
    · simp [h1, h2]
    · cases hst : f.stat with
      | none => simp [h1, h2, hst]
      | some st =>
          by_cases h3 : f.type = "dir" <;>
            simp [h1, h2, hst, h3] <;> omega

/-- The whole listing fold, with an arbitrary starting accumulator. -/
theorem foldl_processEntry (hd : String) :
    ∀ (files : List File) (c : List File) (t : Totals),
      files.foldl (processEntry hd) (c, t)
        = (c ++ files.filter (keepEntry hd),
           ⟨t.size + ((files.filter (keepEntry hd)).map statSize).sum,
            t.dir + ((files.filter (keepEntry hd)).filter
                (fun f => f.type == "dir")).length,
            t.file + ((files.filter (keepEntry hd)).filter
                (fun f => !(f.type == "dir"))).length⟩)
  | [], c, t => by simp
  | f :: fs, c, t => by
      rw [List.foldl_cons, processEntry_eq, List.filter_cons]
      by_cases hk : keepEntry hd f
      · rw [if_pos hk, if_pos hk, foldl_processEntry hd fs]
        by_cases h3 : f.type = "dir" <;>
          simp [List.filter_cons, h3] <;> omega
      · rw [if_neg hk, if_neg hk, foldl_processEntry hd fs]

/-- C8: the emitted listing is exactly the entries that pass the
deny-list/dotfile filter and have readable metadata; the size total is the
sum of their sizes and the directory/file counts are counted over the same
set; every listed entry has readable metadata (unreadable entries are
dropped without aborting the fold, which is a total function). -/
theorem listing_totals_match_filter (files : List File) (hd : String) :
    (listDirectory files hd).1 = files.filter (keepEntry hd) ∧
    (listDirectory files hd).2.size
        = (((listDirectory files hd).1).map statSize).sum ∧
    (listDirectory files hd).2.dir
        = ((listDirectory files hd).1.filter fun f => f.type == "dir").length ∧
    (listDirectory files hd).2.file
        = ((listDirectory files hd).1.filter
            fun f => !(f.type == "dir")).length ∧
    (∀ f ∈ (listDirectory files hd).1, f.stat.isSome = true) := by
  unfold listDirectory
  rw [foldl_processEntry hd files [] ⟨0, 0, 0⟩]
  refine ⟨by simp, by simp, by simp, by simp, ?_⟩
  intro f hf
  simp only [List.nil_append, List.mem_filter] at hf
  have hk := hf.2
  simp only [keepEntry, Bool.and_eq_true] at hk
  exact hk.2

/-- C8 witness: a listing containing an ignored name, a dotfile, an entry
with unreadable metadata, a directory and a plain file, filtered with
`hide-dotfile=yes`, keeps exactly the readable unfiltered entries and sums
their sizes. -/
theorem listing_totals_match_filter_witness :
    (listDirectory
        [entryOfSize "a" 10,
         { name := ".hid", path := ".hid", stat := some ⟨false, 3, 0⟩ },
         { name := ".git", path := ".git", stat := some ⟨true, 1, 0⟩ },
         { name := "bad", path := "bad", stat := none },
         { name := "d", path := "d", stat := some ⟨true, 7, 0⟩ }]
        "yes").2.size
      = (((listDirectory
          [entryOfSize "a" 10,
           { name := ".hid", path := ".hid", stat := some ⟨false, 3, 0⟩ },
           { name := ".git", path := ".git", stat := some ⟨true, 1, 0⟩ },
           { name := "bad", path := "bad", stat := none },
           { name := "d", path := "d", stat := some ⟨true, 7, 0⟩ }]
          "yes").1).map statSize).sum ∧
    (listDirectory
        [entryOfSize "a" 10,
         { name := ".hid", path := ".hid", stat := some ⟨false, 3, 0⟩ },
         { name := ".git", path := ".git", stat := some ⟨true, 1, 0⟩ },
         { name := "bad", path := "bad", stat := none },
         { name := "d", path := "d", stat := some ⟨true, 7, 0⟩ }]
        "yes").2 = ⟨17, 1, 1⟩ ∧
    (listDirectory
        [entryOfSize "a" 10,
         { name := ".hid", path := ".hid", stat := some ⟨false, 3, 0⟩ },
         { name := ".git", path := ".git", stat := some ⟨true, 1, 0⟩ },
         { name := "bad", path := "bad", stat := none },
         { name := "d", path := "d", stat := some ⟨true, 7, 0⟩ }]
        "yes").1.map File.name = ["a", "d"] :=
  ⟨(listing_totals_match_filter
      [entryOfSize "a" 10,
       { name := ".hid", path := ".hid", stat := some ⟨false, 3, 0⟩ },
       { name := ".git", path := ".git", stat := some ⟨true, 1, 0⟩ },
       { name := "bad", path := "bad", stat := none },
       { name := "d", path := "d", stat := some ⟨true, 7, 0⟩ }]
      "yes").2.1,
   by decide, by decide⟩

/-- A character surviving the strip step was in the stripped list. -/
theorem mem_strip (p : Char → Bool) (l : List Char) (c : Char)
    (hc : c ∈ (l.dropWhile p).rdropWhile p) : c ∈ l :=
  (List.dropWhile_sublist p).subset
    ((List.rdropWhile_prefix p (l.dropWhile p)).sublist.subset hc)

/-- The first character surviving the strip step fails the strip
predicate. -/
theorem strip_head_not (p : Char → Bool) (l : List Char) (c : Char)
    (rest : List Char)
    (h : (l.dropWhile p).rdropWhile p = c :: rest) : p c = false := by
  obtain ⟨t, ht⟩ := List.rdropWhile_prefix p (l.dropWhile p)
  rw [h] at ht
  cases hdw : l.dropWhile p with
  | nil => rw [hdw] at ht; simp at ht
  | cons x xs =>
      have hx : p x = false := by
        have hw := List.head_dropWhile_not p l (by rw [hdw]; simp)
        simpa only [hdw, List.head_cons] using hw
      rw [hdw] at ht
      simp only [List.cons_append] at ht
      injection ht with hh1 hh2
      rw [hh1]
      exact hx

/-- Every character of a sanitized filename is safe. -/
theorem secure_filename_chars (filename : String) :
    ∀ c ∈ (secure_filename filename).toList, isSafeChar c = true := by
  intro c hc
  have hc2 : c ∈ ((filename.toList.map fun ch =>
      if ch == '/' || ch == '\\' then '_' else ch).filter isSafeChar) :=
    mem_strip _ _ c hc
  exact (List.mem_filter.1 hc2).2

/-- A sanitized filename never starts with a dot or an underscore. -/
theorem secure_filename_head_not (filename : String) (c : Char)
    (rest : List Char)
    (h : (secure_filename filename).toList = c :: rest) :
    (c == '.' || c == '_') = false :=
  strip_head_not _ _ c rest h

/-- Appending one plain segment (not `.` or `..`) to a path resolves to a
direct child. -/
theorem normSegs_append_singleton (pre : List String) (n : String)
    (h1 : n ≠ ".") (h2 : n ≠ "..") :
    normSegs (pre ++ [n]) = normSegs pre ++ [n] := by
  unfold normSegs
  rw [List.foldl_append]
  simp [normStep, h1, h2]

/-- C9: a sanitized upload filename contains no path separator, is never a
traversal segment (`.` or `..`), and joining it onto the target directory
resolves to a direct child of that directory — never outside it; in
particular `../../etc/passwd` is persisted as `etc_passwd`. -/
theorem upload_filename_sanitized (filename : String) (dir : List String)
    (hne : secure_filename filename ≠ "") :
    (∀ c ∈ (secure_filename filename).toList, c ≠ '/' ∧ c ≠ '\\') ∧
    secure_filename filename ≠ "." ∧
    secure_filename filename ≠ ".." ∧
    normSegs (dir ++ [secure_filename filename])
        = normSegs dir ++ [secure_filename filename] ∧
    normSegs dir <+: normSegs (dir ++ [secure_filename filename]) ∧
    secure_filename "../../etc/passwd" = "etc_passwd" := by
  have hdot : secure_filename filename ≠ "." := by
    intro h
    have hh := secure_filename_head_not filename '.' [] (by rw [h]; rfl)
    exact absurd hh (by decide)
  have hdots : secure_filename filename ≠ ".." := by
    intro h
    have hh := secure_filename_head_not filename '.' ['.'] (by rw [h]; rfl)
    exact absurd hh (by decide)
  have happ := normSegs_append_singleton dir (secure_filename filename)
    hdot hdots
  refine ⟨?_, hdot, hdots, happ, ?_, by decide⟩
  · intro c hc
    have hs := secure_filename_chars filename c hc
    constructor
    · intro h; rw [h] at hs; exact absurd hs (by decide)
    · intro h; rw [h] at hs; exact absurd hs (by decide)
  · rw [happ]
    exact List.prefix_append _ _

/-- C9 witness: the upload name `../../etc/passwd` is sanitized to
`etc_passwd`, and saving it under `/home/user/up` resolves to a direct
child of that directory. -/
theorem upload_filename_sanitized_witness :
    secure_filename "../../etc/passwd" ≠ "" ∧
    secure_filename "../../etc/passwd" = "etc_passwd" ∧
    secure_filename "../../etc/passwd" ≠ ".." ∧
    normSegs (["home", "user", "up"] ++ [secure_filename "../../etc/passwd"])
        = normSegs ["home", "user", "up"]
          ++ [secure_filename "../../etc/passwd"] :=
  have h := upload_filename_sanitized "../../etc/passwd"
    ["home", "user", "up"] (by decide)
  ⟨by decide, h.2.2.2.2.2, h.2.2.1, h.2.2.2.1⟩

/-- A fold whose step ignores the accumulator returns the image of the
last element. -/
theorem foldl_const (g : β → γ) (i : γ) :
    ∀ (l : List β) (r : β), l.getLast? = some r →
      l.foldl (fun _ x => g x) i = g r
  | [], r, h => by simp at h
  | [x], r, h => by
      simp only [List.getLast?_singleton, Option.some.injEq] at h
      subst h; rfl
  | x :: y :: ys, r, h => by
      rw [List.foldl_cons]
      exact foldl_const g (g x) (y :: ys) r
        (by simpa only [List.getLast?_cons_cons] using h)

/-- C10: every POST response carries status code 200, whatever the
outcome: a non-directory target and a failing save are reported only in
the JSON `info` body (`{status, msg}`), never through the status code. -/
theorem post_always_200 (isDir : Bool) (saves : List (Except String Unit)) :
    (pathViewPost isDir saves).1 = 200 ∧
    (isDir = false →
      (pathViewPost isDir saves).2 = some ("error", "Invalid Operation")) ∧
    (∀ e : String, isDir = true → saves.getLast? = some (.error e) →
      (pathViewPost isDir saves).2 = some ("error", e)) := by
  refine ⟨?_, ?_, ?_⟩
  · cases isDir <;> rfl
  · intro h; subst h; rfl
  · intro e h hl
    subst h
    simp only [pathViewPost, if_true]
    exact foldl_const
      (fun r => match r with
        | .error e => some ("error", e)
        | .ok _ => some ("success", "File Saved"))
      none saves (.error e) hl

/-- C10 witness: a failing save batch in a directory target and an upload
to a non-directory target both come back with status 200, the failure only
in the body. -/
theorem post_always_200_witness :
    (pathViewPost true [.ok (), .error "disk full"]).1 = 200 ∧
    (pathViewPost false []).1 = 200 ∧
    (pathViewPost false []).2 = some ("error", "Invalid Operation") ∧
    (pathViewPost true [.ok (), .error "disk full"]).2
        = some ("error", "disk full") :=
  ⟨(post_always_200 true [.ok (), .error "disk full"]).1,
   (post_always_200 false []).1,
   (post_always_200 false []).2.1 rfl,
   (post_always_200 true [.ok (), .error "disk full"]).2.2 "disk full"
     rfl rfl⟩

end FileServer
